import Mathlib

/-!
Verification development for `src/ixmp/reporting/utils.py`.

Python strings are modelled as `List Char`; Python `str.split(sep)` and
`sep.join(...)` for a one-character separator are modelled by `pySplit` and
`pyJoin`.  Fallible operations return `Except PyErr`.  Machine floats appear
only in `ceil(len(S) ** 0.5)`, modelled as the exact natural ⌈√n⌉ (the double
computation is exact at every relevant size).
-/

set_option autoImplicit false

/-- A Python string, as its list of characters. -/
abbrev PyStr := List Char

/-- A table cell / scalar value; values are only carried, never computed on. -/
abbrev Cell := List Char

/-- Convenience: build a `PyStr` from a Lean string literal. -/
def pystr (s : String) : PyStr := s.toList

/-- The Python exception classes this module can raise. -/
inductive PyErr
  | keyError
  | valueError
  | assertionError
deriving DecidableEq

/-- Python `s.split(sep)` for a single-character `sep`:
`''.split(sep) = ['']`, and every occurrence of `sep` starts a new chunk. -/
def pySplit (sep : Char) : PyStr → List PyStr
  | [] => [[]]
  | c :: rest =>
    match pySplit sep rest with
    | [] => [[]]
    | h :: t => if c = sep then [] :: h :: t else (c :: h) :: t

/-- Python `sep.join(parts)` for a single-character `sep`. -/
def pyJoin (sep : Char) : List PyStr → PyStr
  | [] => []
  | [s] => s
  | s :: h :: t => s ++ sep :: pyJoin sep (h :: t)

/-- Number of binary digits of `n` (0 for `n = 0`), computed with fuel so that
it is structurally recursive; fuel `n` suffices since `n` has at most `n`
binary digits for `n ≥ 1`. -/
def bitLenFuel : Nat → Nat → Nat
  | 0, _ => 0
  | fuel + 1, n => if n = 0 then 0 else bitLenFuel fuel (n / 2) + 1

/-- Number of binary digits of `n` (`len(bin(n)) - 2` in Python, 0 for 0). -/
def bitLen (n : Nat) : Nat := bitLenFuel n n

/-- `ceil(n ** 0.5)` as computed by the source: the least `k` with `n ≤ k²`.
(The search is bounded by `n + 1`, which always satisfies the predicate.) -/
def ceilSqrt (n : Nat) : Nat :=
  (((List.range (n + 2)).find? (fun k => decide (n ≤ k * k))).getD 0)

/-- Python `format(n, '0{w}b')`: the binary digits of `n`, most significant
first, zero-padded on the left to width `w` (never truncated; `0` renders as
the single digit `'0'`, hence the `max _ 1`). -/
def pyBinPad (w n : Nat) : List Bool :=
  let L := max w (max (bitLen n) 1)
  (List.range L).map (fun i => decide ((n / 2 ^ (L - 1 - i)) % 2 = 1))

/-- Python `itertools.compress(l, sel)`: elements of `l` whose selector is
true, truncating to the shorter of the two lists (as `zip` does). -/
def compress {α : Type} (l : List α) (sel : List Bool) : List α :=
  ((l.zip sel).filter (fun p => p.2)).map (fun p => p.1)

/-- One iteration of the loop body of `combo_partition`: the pair produced for
the integer `n`, using the source's padding width `ceil(sqrt(len(S)))`. -/
def comboPair {α : Type} (S : List α) (n : Nat) : List α × List α :=
  let bs := pyBinPad (ceilSqrt S.length) n
  (compress S bs, compress S (bs.map not))

/-- `combo_partition(S)`: the pairs yielded for `n in range(2 ** len(S) - 1)`. -/
def combo_partition {α : Type} (S : List α) : List (List α × List α) :=
  (List.range (2 ^ S.length - 1)).map (comboPair S)

/-- The `Key` class: a quantity name together with its dimension names. -/
structure Key where
  name : PyStr
  dims : List PyStr
deriving DecidableEq

/-- `Key.__repr__`: the canonical string `name + ':' + '-'.join(dims)`. -/
def Key.reprStr (k : Key) : PyStr := k.name ++ ':' :: pyJoin '-' k.dims

/-- The string branch of `Key.from_str_or_key`:
`name, dims = value.split(':')` (a `ValueError` unless the split has exactly
two parts) followed by `dims.split('-')`. -/
def Key.from_str (s : PyStr) : Except PyErr Key :=
  match pySplit ':' s with
  | [n, d] => .ok ⟨n, pySplit '-' d⟩
  | _ => .error .valueError

/-- `Key.__eq__` against a plain string: `repr(self) == other`. -/
def Key.eqStr (k : Key) (s : PyStr) : Bool := k.reprStr == s

/-- `Key.__eq__` between two Keys: reduces to comparing the two `repr`s. -/
def Key.eqKey (k k2 : Key) : Bool := k.reprStr == k2.reprStr

/-- `Key.__hash__`: `hash(repr(self))`, for an arbitrary underlying string
hash `h` (Python's builtin string hash is opaque; every theorem below holds
for any choice of `h`). -/
def pyKeyHash (h : PyStr → Int) (k : Key) : Int := h k.reprStr

/-- The task descriptor `(partial(aggregate, dimensions=others), self)`
produced by `Key.aggregates`. -/
structure AggTask where
  dimensions : List PyStr
  quantity : Key
deriving DecidableEq

/-- `Key.aggregates`: for each pair `(agg_dims, others)` of
`combo_partition(self._dims)`, yield `Key(self._name, agg_dims)` together
with the task descriptor over `others`. -/
def Key.aggregates (k : Key) : List (Key × AggTask) :=
  (combo_partition k.dims).map (fun p => (⟨k.name, p.1⟩, ⟨p.2, k⟩))

/-- A pandas DataFrame, abstracted as its ordered list of named columns (each
column a name together with its values in row order). -/
abbrev Table := List (PyStr × List Cell)

/-- A scalar record (`dict`) as returned for a GAMS scalar quantity. -/
abbrev Record := List (PyStr × Cell)

/-- `pd.DataFrame.from_records([data])`: a one-row table with the record's
columns in order. -/
def toTable (r : Record) : Table := r.map (fun p => (p.1, [p.2]))

/-- `data.pop(nm)`: the removed column's values and the remaining table (the
first column named `nm` is removed, order of the rest preserved); `none` is
the `KeyError` case. -/
def popColumn (nm : PyStr) : Table → Option (List Cell × Table)
  | [] => none
  | c :: rest =>
    if c.1 = nm then some (c.2, rest)
    else
      match popColumn nm rest with
      | none => none
      | some (v, t) => some (v, c :: t)

/-- Helper for `pdUnique`: keep elements not seen before, in order. -/
def pdUniqueAux : List Cell → List Cell → List Cell
  | [], _ => []
  | c :: rest, seen =>
    if c ∈ seen then pdUniqueAux rest seen else c :: pdUniqueAux rest (c :: seen)

/-- `pd.unique`: distinct values in order of first appearance. -/
def pdUnique (l : List Cell) : List Cell := pdUniqueAux l []

/-- Lines 101-108 of the source: pop the `unit` column if present (`KeyError`
caught, empty attrs); otherwise `assert len(pd.unique(units)) == 1` and attach
the single unit as the `unit` attribute. -/
def popUnit (t : Table) : Except PyErr (List (PyStr × Cell) × Table) :=
  match popColumn (pystr "unit") t with
  | none => .ok ([], t)
  | some (vals, t2) =>
    match pdUnique vals with
    | [u] => .ok ([(pystr "unit", u)], t2)
    | _ => .error .assertionError

/-- The `value_columns` dict lookup: `{'par': ['value'], 'equ': ['lvl',
'mrg'], 'var': ['lvl', 'mrg']}[kind]`, a `KeyError` for any other kind. -/
def value_columns (kind : PyStr) : Except PyErr (List PyStr) :=
  if kind = pystr "par" then .ok [pystr "value"]
  else if kind = pystr "equ" then .ok [pystr "lvl", pystr "mrg"]
  else if kind = pystr "var" then .ok [pystr "lvl", pystr "mrg"]
  else .error .keyError

/-- `[dims.remove(col) for col in value_columns]`: remove the first occurrence
of each value column from the dims list, a `ValueError` if one is absent. -/
def removeCols : List PyStr → List PyStr → Except PyErr (List PyStr)
  | d, [] => .ok d
  | d, c :: cs => if c ∈ d then removeCols (d.erase c) cs else .error .valueError

/-- The values of column `c` of `t` (used for `ds[col]` on columns known to
exist). -/
def colValues (t : Table) (c : PyStr) : List Cell :=
  (((t.find? (fun p => decide (p.1 = c))).map (fun p => p.2)).getD [])

/-- Number of rows of a table (length of its first column). -/
def nrowsOf : Table → Nat
  | [] => 0
  | c :: _ => c.2.length

/-- One returned `xr.DataArray`, abstracted as its dimension names, its value
column in row order (the dense reshaping performed by
`xr.Dataset.from_dataframe` is abstracted away; the claims below concern only
dims, attrs, and names), its attributes, and its name. -/
structure DataArray where
  dims : List PyStr
  values : List Cell
  attrs : List (PyStr × Cell)
  name : PyStr
deriving DecidableEq

/-- The index/squeeze step of the source: with the dims as index the dataset's
dimensions are the dims themselves, or the placeholder `index` when there are
none; then `squeeze('index', drop=True)` removes an `index` dimension of
length one (`KeyError` when absent is caught by the source; a length > 1 is a
`ValueError`). -/
def squeezeDims (dims : List PyStr) (nrows : Nat) : Except PyErr (List PyStr) :=
  let dsDims := if dims.isEmpty then [pystr "index"] else dims
  if pystr "index" ∈ dsDims then
    (if nrows = 1 then .ok (dsDims.erase (pystr "index")) else .error .valueError)
  else .ok dsDims

/-- `quantity_as_xr(scenario, name, kind)`, taking the already-retrieved data
(`getattr(scenario, kind)(name)`) as input: either a scalar `dict` record or a
table.  Mirrors the source line by line: wrap a dict as a one-row table; pop
and check the unit column; list the remaining columns; look up the kind's
value columns; remove them to obtain the dims; index and squeeze
(`squeezeDims`); and return one named, attributed array per value column. -/
def quantity_as_xr (name kind : PyStr) (input : Record ⊕ Table) :
    Except PyErr (List (PyStr × DataArray)) :=
  match popUnit (match input with | .inl r => toTable r | .inr t => t) with
  | .error e => .error e
  | .ok (attrs, data) =>
    match value_columns kind with
    | .error e => .error e
    | .ok vcols =>
      match removeCols (data.map (fun p => p.1)) vcols with
      | .error e => .error e
      | .ok dims =>
        match squeezeDims dims (nrowsOf data) with
        | .error e => .error e
        | .ok finalDims =>
          .ok (vcols.map (fun c => (c, ⟨finalDims, colValues data c, attrs, name⟩)))

/-! ### Helper lemmas about the string split/join model -/

theorem pySplit_ne_nil (sep : Char) (s : PyStr) : pySplit sep s ≠ [] := by
  cases s with
  | nil => simp [pySplit]
  | cons c rest =>
    simp only [pySplit]
    split
    · simp
    · split <;> simp

theorem pySplit_cons (sep c : Char) (rest : PyStr) (h : PyStr) (t : List PyStr)
    (hsp : pySplit sep rest = h :: t) :
    pySplit sep (c :: rest) = if c = sep then [] :: h :: t else (c :: h) :: t := by
  simp only [pySplit, hsp]

theorem pyJoin_pySplit (sep : Char) (s : PyStr) : pyJoin sep (pySplit sep s) = s := by
  induction s with
  | nil => rfl
  | cons c rest ih =>
    cases hsp : pySplit sep rest with
    | nil => exact absurd hsp (pySplit_ne_nil sep rest)
    | cons h t =>
      rw [hsp] at ih
      rw [pySplit_cons sep c rest h t hsp]
      by_cases hc : c = sep
      · subst hc
        rw [if_pos rfl]
        cases t with
        | nil => simpa [pyJoin] using ih
        | cons t1 ts => simpa [pyJoin] using ih
      · rw [if_neg hc]
        cases t with
        | nil => simpa [pyJoin] using congrArg (fun l => c :: l) ih
        | cons t1 ts => simpa [pyJoin] using congrArg (fun l => c :: l) ih

theorem pySplit_of_not_mem {sep : Char} {s : PyStr} (h : sep ∉ s) :
    pySplit sep s = [s] := by
  induction s with
  | nil => rfl
  | cons c rest ih =>
    have hc : c ≠ sep := fun hh => h (hh ▸ List.mem_cons_self c rest)
    have hrest : sep ∉ rest := fun hh => h (List.mem_cons_of_mem c hh)
    rw [pySplit_cons sep c rest rest [] (ih hrest), if_neg hc]

theorem pySplit_append {sep : Char} {a : PyStr} (b : PyStr) (h : sep ∉ a) :
    pySplit sep (a ++ sep :: b) = a :: pySplit sep b := by
  induction a with
  | nil =>
    cases hsp : pySplit sep b with
    | nil => exact absurd hsp (pySplit_ne_nil sep b)
    | cons hh tt =>
      rw [List.nil_append, pySplit_cons sep sep b hh tt hsp, if_pos rfl]

  | cons c a2 ih =>
    have hc : c ≠ sep := fun hh => h (hh ▸ List.mem_cons_self c a2)
    have ha2 : sep ∉ a2 := fun hh => h (List.mem_cons_of_mem c hh)
    have ih2 := ih ha2
    cases hsp : pySplit sep (a2 ++ sep :: b) with
    | nil => exact absurd hsp (pySplit_ne_nil sep _)
    | cons hh tt =>
      rw [hsp] at ih2
      cases ih2
      rw [List.cons_append, pySplit_cons sep c (a2 ++ sep :: b) a2 (pySplit sep b) hsp,
        if_neg hc]

theorem pySplit_length (sep : Char) (s : PyStr) :
    (pySplit sep s).length = s.count sep + 1 := by
  induction s with
  | nil => simp [pySplit]
  | cons c rest ih =>
    cases hsp : pySplit sep rest with
    | nil => exact absurd hsp (pySplit_ne_nil sep rest)
    | cons h t =>
      rw [hsp] at ih
      rw [pySplit_cons sep c rest h t hsp]
      by_cases hc : c = sep
      · subst hc
        rw [if_pos rfl]
        simp only [List.length_cons, List.count_cons_self]
        simp only [List.length_cons] at ih
        omega
      · rw [if_neg hc, List.count_cons_of_ne (Ne.symm hc)]
        simpa using ih

theorem mem_pyJoin {sep : Char} {c : Char} {ls : List PyStr}
    (h : c ∈ pyJoin sep ls) : c = sep ∨ ∃ l ∈ ls, c ∈ l := by
  induction ls with
  | nil => simp [pyJoin] at h
  | cons s rest ih =>
    cases rest with
    | nil =>
      right
      exact ⟨s, List.mem_cons_self s [], by simpa [pyJoin] using h⟩
    | cons h1 t1 =>
      simp only [pyJoin, List.mem_append, List.mem_cons] at h
      rcases h with hs | hs | hs
      · exact Or.inr ⟨s, List.mem_cons_self _ _, hs⟩
      · exact Or.inl hs
      · rcases ih (by simpa [pyJoin] using hs) with heq | ⟨l, hl, hcl⟩
        · exact Or.inl heq
        · exact Or.inr ⟨l, List.mem_cons_of_mem s hl, hcl⟩

theorem removeCols_subset : ∀ (cs d r : List PyStr),
    removeCols d cs = .ok r → r ⊆ d := by
  intro cs
  induction cs with
  | nil =>
    intro d r h
    simp only [removeCols] at h
    cases h
    exact fun x hx => hx
  | cons c cs2 ih =>
    intro d r h
    simp only [removeCols] at h
    by_cases hc : c ∈ d
    · rw [if_pos hc] at h
      exact fun x hx => List.erase_subset _ _ (ih (d.erase c) r h hx)
    · rw [if_neg hc] at h
      cases h

theorem squeezeDims_subset {dims finalDims : List PyStr} {n : Nat}
    (h : squeezeDims dims n = .ok finalDims) :
    finalDims ⊆ (if dims.isEmpty then [pystr "index"] else dims) := by
  simp only [squeezeDims] at h
  by_cases hmem : pystr "index" ∈ (if dims.isEmpty then [pystr "index"] else dims)
  · rw [if_pos hmem] at h
    by_cases hn : n = 1
    · rw [if_pos hn] at h
      cases h
      exact List.erase_subset _ _
    · rw [if_neg hn] at h
      exact Except.noConfusion h
  · rw [if_neg hmem] at h
    cases h
    exact fun x hx => hx

theorem quantity_as_xr_ok_elim {name kind : PyStr} {input : Record ⊕ Table}
    {res : List (PyStr × DataArray)}
    (h : quantity_as_xr name kind input = .ok res) :
    ∃ attrs data vcols dims finalDims,
      popUnit (match input with | .inl r => toTable r | .inr t => t) = .ok (attrs, data) ∧
      value_columns kind = .ok vcols ∧
      removeCols (data.map (fun p => p.1)) vcols = .ok dims ∧
      squeezeDims dims (nrowsOf data) = .ok finalDims ∧
      res = vcols.map (fun c => (c, ⟨finalDims, colValues data c, attrs, name⟩)) := by
  simp only [quantity_as_xr] at h
  split at h
  · exact Except.noConfusion h
  next attrs data heq1 =>
    split at h
    · exact Except.noConfusion h
    next vcols heq2 =>
      split at h
      · exact Except.noConfusion h
      next dims heq3 =>
        split at h
        · exact Except.noConfusion h
        next finalDims heq4 =>
          cases h
          exact ⟨attrs, data, vcols, dims, finalDims, heq1, heq2, heq3, heq4, rfl⟩

/-! ### Claims about `combo_partition` and `Key.aggregates` -/

/-- Claim C1 (evaluation at a failing input): already for the length-3
sequence `S = [0, 1, 2]` the first pair yielded by `combo_partition` is
`([], [0, 1])` — element `2` appears in neither list, because the bit pattern
for `n = 0` has only `ceil(sqrt(3)) = 2` digits.  The pairs are therefore not
all element-wise partitions of `S`, contradicting the function's stated
purpose of yielding all subsets of the iterable. -/
theorem combo_partition_C1_failing_eval :
    (combo_partition ([0, 1, 2] : List Nat)).head? = some ([], [0, 1]) ∧
      (2 : Nat) ∉ ([] : List Nat) ++ [0, 1] := by
  exact ⟨rfl, by decide⟩

/-- Claim C2 (counterexample): for `S = [0, 1]` (where the bit patterns have
full width, so membership assignments are faithfully represented) the
enumerator yields only 3 of the 4 possible assignments: the all-ones
assignment — the pair `([0, 1], [])`, i.e. the "nothing aggregated" case — is
excluded by construction inside the enumerator, refuting the claim that no
assignment is excluded there. -/
theorem combo_partition_C2_counterexample :
    (combo_partition ([0, 1] : List Nat)).length = 3 ∧
      ([0, 1], ([] : List Nat)) ∉ combo_partition ([0, 1] : List Nat) := by
  decide

/-- Claim C2 (amended): `combo_partition(S)` yields exactly `2 ^ len(S) - 1`
pairs, one per `n in range(2 ** len(S) - 1)`, so exactly one bit pattern —
the all-ones value `2 ^ len(S) - 1` — is excluded by construction inside the
enumerator itself. -/
theorem combo_partition_C2_enumeration {α : Type} (S : List α) (i : Nat) :
    (combo_partition S).length = 2 ^ S.length - 1 ∧
      (i < 2 ^ S.length - 1 → (combo_partition S)[i]? = some (comboPair S i)) := by
  constructor
  · simp [combo_partition]
  · intro hi
    simp [combo_partition, List.getElem?_map, List.getElem?_range, hi]

/-- Claim C2 (witness): the amended enumeration theorem at `S = [0, 1]`,
`i = 1`: there are 3 pairs and the second one is the pair for bit pattern
`01`, namely `([1], [0])`. -/
theorem combo_partition_C2_enumeration_witness :
    (combo_partition ([0, 1] : List Nat)).length = 3 ∧
      (combo_partition ([0, 1] : List Nat))[1]? = some ([1], [0]) :=
  ⟨(combo_partition_C2_enumeration [0, 1] 1).1,
    ((combo_partition_C2_enumeration [0, 1] 1).2 (by decide)).trans (by decide)⟩

/-- Claim C3 (counterexample): for `Key('foo', ['a','b','c'])` the first pair
yielded by `aggregates()` has a Key with an empty dims list (so not every
yielded Key has non-empty dims), and its task descriptor references only
`['a', 'b']`, which is not the complement of the empty kept subset (the
padding bug drops `'c'` from both sides). -/
theorem aggregates_C3_counterexample :
    (Key.aggregates ⟨pystr "foo", [pystr "a", pystr "b", pystr "c"]⟩).head? =
      some (⟨pystr "foo", []⟩,
        ⟨[pystr "a", pystr "b"], ⟨pystr "foo", [pystr "a", pystr "b", pystr "c"]⟩⟩) ∧
      [pystr "a", pystr "b"] ≠ [pystr "a", pystr "b", pystr "c"] := by
  exact ⟨rfl, by decide⟩

/-- Claim C3 (amended): for `Key('foo', ['a','b','c'])`, `aggregates()` yields
7 pairs; every yielded pair has a Key named `foo` whose dims are a proper —
possibly empty — order-preserving subsequence of `['a','b','c']`, and a task
descriptor over the original Key whose dims are an order-preserving
subsequence of `['a','b','c']` disjoint from the kept dims (but, because of
the padding bug, not always exactly the complement). -/
theorem aggregates_C3_amended :
    (Key.aggregates ⟨pystr "foo", [pystr "a", pystr "b", pystr "c"]⟩).length = 7 ∧
    ∀ p ∈ Key.aggregates ⟨pystr "foo", [pystr "a", pystr "b", pystr "c"]⟩,
      p.1.name = pystr "foo" ∧
      p.1.dims.Sublist [pystr "a", pystr "b", pystr "c"] ∧
      p.2.dimensions.Sublist [pystr "a", pystr "b", pystr "c"] ∧
      p.1.dims ≠ [pystr "a", pystr "b", pystr "c"] ∧
      (∀ d ∈ p.1.dims, d ∉ p.2.dimensions) ∧
      p.2.quantity = ⟨pystr "foo", [pystr "a", pystr "b", pystr "c"]⟩ := by
  decide

/-- Claim C3 (witness): the amended statement applied to the fifth yielded
pair `(Key('foo', ['a']), task over ['b', 'c'])`, which is a genuine
aggregation of `b` and `c`. -/
theorem aggregates_C3_witness :
    (⟨pystr "foo", [pystr "a"]⟩ : Key).name = pystr "foo" ∧
    (⟨pystr "foo", [pystr "a"]⟩ : Key).dims.Sublist [pystr "a", pystr "b", pystr "c"] ∧
    (⟨[pystr "b", pystr "c"], ⟨pystr "foo", [pystr "a", pystr "b", pystr "c"]⟩⟩
        : AggTask).dimensions.Sublist [pystr "a", pystr "b", pystr "c"] ∧
    (⟨pystr "foo", [pystr "a"]⟩ : Key).dims ≠ [pystr "a", pystr "b", pystr "c"] ∧
    (∀ d ∈ (⟨pystr "foo", [pystr "a"]⟩ : Key).dims,
      d ∉ (⟨[pystr "b", pystr "c"],
        ⟨pystr "foo", [pystr "a", pystr "b", pystr "c"]⟩⟩ : AggTask).dimensions) ∧
    (⟨[pystr "b", pystr "c"], ⟨pystr "foo", [pystr "a", pystr "b", pystr "c"]⟩⟩
        : AggTask).quantity = ⟨pystr "foo", [pystr "a", pystr "b", pystr "c"]⟩ :=
  aggregates_C3_amended.2
    (⟨pystr "foo", [pystr "a"]⟩,
      ⟨[pystr "b", pystr "c"], ⟨pystr "foo", [pystr "a", pystr "b", pystr "c"]⟩⟩)
    (by decide)

/-! ### Claims about `Key` parsing, equality and hashing -/

/-- Claim C4 (counterexample): for `Key('a:b', [])` — a Key the constructor
accepts without validation — the canonical string is `'a:b:'`, whose split on
`':'` has three parts, so `from_str_or_key` raises a `ValueError` instead of
returning an equal Key.  The round-trip therefore fails for some Keys. -/
theorem key_roundtrip_C4_counterexample :
    Key.from_str (Key.reprStr ⟨pystr "a:b", []⟩) = .error .valueError := rfl

/-- Claim C4 (amended): for every Key whose name and dims contain no `':'`
character, parsing the canonical string form returns a Key that compares
equal to the original (equality being by canonical string). -/
theorem key_roundtrip_C4 (k : Key) (hn : ':' ∉ k.name)
    (hd : ∀ d ∈ k.dims, ':' ∉ d) :
    ∃ k2, Key.from_str k.reprStr = .ok k2 ∧ Key.eqKey k2 k = true := by
  have hjoin : ':' ∉ pyJoin '-' k.dims := by
    intro hmem
    rcases mem_pyJoin hmem with heq | ⟨l, hl, hcl⟩
    · exact absurd heq (by decide)
    · exact hd l hl hcl
  have hsplit : pySplit ':' (Key.reprStr k) = [k.name, pyJoin '-' k.dims] := by
    rw [Key.reprStr, pySplit_append _ hn, pySplit_of_not_mem hjoin]
  refine ⟨⟨k.name, pySplit '-' (pyJoin '-' k.dims)⟩, ?_, ?_⟩
  · simp only [Key.from_str, hsplit]
  · simp [Key.eqKey, Key.reprStr, pyJoin_pySplit]

/-- Claim C4 (witness): the amended round-trip at `Key('foo', ['a', 'b'])`. -/
theorem key_roundtrip_C4_witness :
    ∃ k2, Key.from_str (Key.reprStr ⟨pystr "foo", [pystr "a", pystr "b"]⟩) = .ok k2 ∧
      Key.eqKey k2 ⟨pystr "foo", [pystr "a", pystr "b"]⟩ = true :=
  key_roundtrip_C4 ⟨pystr "foo", [pystr "a", pystr "b"]⟩ (by decide) (by decide)

/-- Claim C5 (counterexample): `'a:b:c'` contains a `':'` yet
`from_str_or_key` fails with a `ValueError` (the two-variable unpacking of
`split(':')` also raises when the string contains more than one `':'`),
refuting "fails if and only if the string contains no `':'`". -/
theorem key_from_str_C5_counterexample :
    Key.from_str (pystr "a:b:c") = .error .valueError ∧ ':' ∈ pystr "a:b:c" := by
  exact ⟨rfl, by decide⟩

/-- Claim C5 (amended): `from_str_or_key` on a string succeeds exactly when
the string contains exactly one `':'`; in every failing case the raised
exception is the value-error class; and on `name ++ ':' ++ dims-string` (with
no `':'` in either part) it splits into the name and the dims-string split on
`'-'`. -/
theorem key_from_str_C5 :
    (∀ s : PyStr, s.count ':' = 1 → ∃ k, Key.from_str s = .ok k) ∧
    (∀ s : PyStr, s.count ':' ≠ 1 → Key.from_str s = .error .valueError) ∧
    (∀ a b : PyStr, ':' ∉ a → ':' ∉ b →
      Key.from_str (a ++ ':' :: b) = .ok ⟨a, pySplit '-' b⟩) := by
  refine ⟨?_, ?_, ?_⟩
  · intro s hcount
    have hlen : (pySplit ':' s).length = 2 := by
      rw [pySplit_length, hcount]
    cases hsp : pySplit ':' s with
    | nil => rw [hsp] at hlen; simp at hlen
    | cons x rest =>
      cases rest with
      | nil => rw [hsp] at hlen; simp at hlen
      | cons y rest2 =>
        cases rest2 with
        | nil => exact ⟨⟨x, pySplit '-' y⟩, by simp only [Key.from_str, hsp]⟩
        | cons z t => rw [hsp] at hlen; simp at hlen
  · intro s hcount
    have hlen : (pySplit ':' s).length = s.count ':' + 1 := pySplit_length ':' s
    cases hsp : pySplit ':' s with
    | nil => exact absurd hsp (pySplit_ne_nil ':' s)
    | cons x rest =>
      cases rest with
      | nil => simp only [Key.from_str, hsp]
      | cons y rest2 =>
        cases rest2 with
        | nil =>
          rw [hsp] at hlen
          simp only [List.length_cons, List.length_nil] at hlen
          omega
        | cons z t => simp only [Key.from_str, hsp]
  · intro a b ha hb
    have hsp : pySplit ':' (a ++ ':' :: b) = [a, b] := by
      rw [pySplit_append b ha, pySplit_of_not_mem hb]
    simp only [Key.from_str, hsp]

/-- Claim C5 (witness): the amended behaviour at concrete strings: `'ab'` (no
`':'`) fails with a `ValueError`, and `'a:b-c'` parses into name `'a'` and
dims `['b', 'c']`. -/
theorem key_from_str_C5_witness :
    Key.from_str (pystr "ab") = .error .valueError ∧
      Key.from_str (pystr "a" ++ ':' :: pystr "b-c") =
        .ok ⟨pystr "a", [pystr "b", pystr "c"]⟩ :=
  ⟨key_from_str_C5.2.1 (pystr "ab") (by decide),
   key_from_str_C5.2.2 (pystr "a") (pystr "b-c") (by decide) (by decide)⟩

/-- Claim C6: a Key compares equal to a plain string exactly when the string
is the Key's canonical form; the hash is the hash of the canonical string
(for any underlying string hash), and is therefore consistent with the
equality: a Key hashes like any string it compares equal to. -/
theorem key_eq_hash_C6 (h : PyStr → Int) (k : Key) (s : PyStr) :
    (Key.eqStr k s = true ↔ s = k.reprStr) ∧
    pyKeyHash h k = h k.reprStr ∧
    (Key.eqStr k s = true → pyKeyHash h k = h s) := by
  refine ⟨⟨fun he => ?_, fun hs => ?_⟩, rfl, fun he => ?_⟩
  · exact (show k.reprStr = s by simpa [Key.eqStr] using he).symm
  · subst hs
    simp [Key.eqStr]
  · have hs : k.reprStr = s := by simpa [Key.eqStr] using he
    simp [pyKeyHash, hs]

/-- Claim C6 (witness): at `Key('foo', ['a'])`, the string `'foo:a'` and the
length function as string hash: `Key('foo', ['a']) == 'foo:a'` holds, and the
hash of the Key equals the hash of `'foo:a'`. -/
theorem key_eq_hash_C6_witness :
    pyKeyHash (fun l => (l.length : Int)) ⟨pystr "foo", [pystr "a"]⟩ =
      ((pystr "foo:a").length : Int) :=
  (key_eq_hash_C6 (fun l => (l.length : Int)) ⟨pystr "foo", [pystr "a"]⟩
    (pystr "foo:a")).2.2 (by decide)

/-- Claim C10: `Key('a', ['b-c'])` and `Key('a', ['b', 'c'])` are structurally
different, yet both render as `'a:b-c'`, compare equal under the Key equality,
and hash equal for every underlying string hash. -/
theorem key_collision_C10 :
    (⟨pystr "a", [pystr "b-c"]⟩ : Key) ≠ ⟨pystr "a", [pystr "b", pystr "c"]⟩ ∧
    Key.reprStr ⟨pystr "a", [pystr "b-c"]⟩ = pystr "a:b-c" ∧
    Key.reprStr ⟨pystr "a", [pystr "b", pystr "c"]⟩ = pystr "a:b-c" ∧
    Key.eqKey ⟨pystr "a", [pystr "b-c"]⟩ ⟨pystr "a", [pystr "b", pystr "c"]⟩ = true ∧
    ∀ h : PyStr → Int,
      pyKeyHash h ⟨pystr "a", [pystr "b-c"]⟩ =
        pyKeyHash h ⟨pystr "a", [pystr "b", pystr "c"]⟩ := by
  refine ⟨by decide, by decide, by decide, by decide, ?_⟩
  intro h
  exact congrArg h (by decide)

/-! ### Claims about `quantity_as_xr` -/

theorem map_fst_pairs {A B : Type} (f : A → B) (l : List A) :
    (l.map (fun c => (c, f c))).map Prod.fst = l := by
  induction l with
  | nil => rfl
  | cons c cs ih => simp only [List.map_cons, ih]

/-- Claim C7 (counterexample): the spelled-out kind tags of the claim are not
the ones the code accepts: `'parameter'` and `'equation'` fail with the
key-error class even on well-formed tables, while `'par'` succeeds and keys
the result by the literal column name `'value'`. -/
theorem quantity_as_xr_C7_counterexample :
    quantity_as_xr (pystr "q") (pystr "parameter")
      (.inr [(pystr "value", [pystr "1"]), (pystr "unit", [pystr "kg"])]) =
      .error .keyError ∧
    quantity_as_xr (pystr "q") (pystr "equation")
      (.inr [(pystr "lvl", [pystr "1"]), (pystr "mrg", [pystr "0"])]) =
      .error .keyError ∧
    quantity_as_xr (pystr "q") (pystr "par")
      (.inr [(pystr "value", [pystr "1"]), (pystr "unit", [pystr "kg"])]) =
      .ok [(pystr "value",
        ⟨[], [pystr "1"], [(pystr "unit", pystr "kg")], pystr "q"⟩)] :=
  ⟨rfl, rfl, rfl⟩

/-- Claim C7 (amended): whenever `quantity_as_xr` succeeds, the kind was one
of the literal tags `'par'`, `'equ'`, `'var'`, and the returned mapping is
keyed by the kind's literal value columns: `par → ['value']`,
`equ → ['lvl', 'mrg']`, `var → ['lvl', 'mrg']`; every other kind fails the
dict lookup. -/
theorem quantity_as_xr_C7 (name kind : PyStr) (input : Record ⊕ Table)
    (res : List (PyStr × DataArray))
    (h : quantity_as_xr name kind input = .ok res) :
    (kind = pystr "par" ∧ res.map Prod.fst = [pystr "value"]) ∨
    (kind = pystr "equ" ∧ res.map Prod.fst = [pystr "lvl", pystr "mrg"]) ∨
    (kind = pystr "var" ∧ res.map Prod.fst = [pystr "lvl", pystr "mrg"]) := by
  obtain ⟨attrs, data, vcols, dims, finalDims, _, hvc, _, _, hres⟩ :=
    quantity_as_xr_ok_elim h
  have hkeys : res.map Prod.fst = vcols := by
    subst hres
    exact map_fst_pairs _ vcols
  unfold value_columns at hvc
  by_cases h1 : kind = pystr "par"
  · rw [if_pos h1] at hvc
    cases hvc
    exact Or.inl ⟨h1, hkeys⟩
  · rw [if_neg h1] at hvc
    by_cases h2 : kind = pystr "equ"
    · rw [if_pos h2] at hvc
      cases hvc
      exact Or.inr (Or.inl ⟨h2, hkeys⟩)
    · rw [if_neg h2] at hvc
      by_cases h3 : kind = pystr "var"
      · rw [if_pos h3] at hvc
        cases hvc
        exact Or.inr (Or.inr ⟨h3, hkeys⟩)
      · rw [if_neg h3] at hvc
        exact Except.noConfusion hvc

/-- Claim C7 (witness): the amended statement at a successful `'par'` call. -/
theorem quantity_as_xr_C7_witness :
    (pystr "par" = pystr "par" ∧
      ([(pystr "value",
        (⟨[], [pystr "1"], [(pystr "unit", pystr "kg")],
          pystr "q"⟩ : DataArray))].map Prod.fst = [pystr "value"])) ∨
    (pystr "par" = pystr "equ" ∧
      ([(pystr "value",
        (⟨[], [pystr "1"], [(pystr "unit", pystr "kg")],
          pystr "q"⟩ : DataArray))].map Prod.fst = [pystr "lvl", pystr "mrg"])) ∨
    (pystr "par" = pystr "var" ∧
      ([(pystr "value",
        (⟨[], [pystr "1"], [(pystr "unit", pystr "kg")],
          pystr "q"⟩ : DataArray))].map Prod.fst = [pystr "lvl", pystr "mrg"])) :=
  quantity_as_xr_C7 (pystr "q") (pystr "par")
    (.inr [(pystr "value", [pystr "1"]), (pystr "unit", [pystr "kg"])])
    [(pystr "value", ⟨[], [pystr "1"], [(pystr "unit", pystr "kg")], pystr "q"⟩)]
    rfl

/-- Claim C8: (a) a table whose `unit` column holds two or more distinct
values makes `quantity_as_xr` fail with the assertion-error class (for every
name and kind — the assert precedes everything else); (b) with exactly one
distinct unit value, on success the unit column is gone (no returned array is
indexed by a `unit` dimension) and the value is attached as the `unit`
attribute of every returned array. -/
theorem quantity_as_xr_C8 :
    (∀ (name kind : PyStr) (t : Table) (vals : List Cell) (t2 : Table),
      popColumn (pystr "unit") t = some (vals, t2) →
      2 ≤ (pdUnique vals).length →
      quantity_as_xr name kind (.inr t) = .error .assertionError) ∧
    (∀ (name kind : PyStr) (t : Table) (vals : List Cell) (t2 : Table)
        (u : Cell) (res : List (PyStr × DataArray)),
      popColumn (pystr "unit") t = some (vals, t2) →
      pdUnique vals = [u] →
      pystr "unit" ∉ t2.map (fun p => p.1) →
      quantity_as_xr name kind (.inr t) = .ok res →
      ∀ p ∈ res, p.2.attrs = [(pystr "unit", u)] ∧
        pystr "unit" ∉ p.2.dims ∧ p.2.name = name) := by
  constructor
  · intro name kind t vals t2 hpop hlen
    have hpu : popUnit t = .error .assertionError := by
      cases hq : pdUnique vals with
      | nil => rw [hq] at hlen; simp at hlen
      | cons a rest =>
        cases rest with
        | nil => rw [hq] at hlen; simp at hlen
        | cons b r2 => simp only [popUnit, hpop, hq]
    simp only [quantity_as_xr, hpu]
  · intro name kind t vals t2 u res hpop hq hnot h
    obtain ⟨attrs, data, vcols, dims, finalDims, hpu, hvc, hrm, hsq, hres⟩ :=
      quantity_as_xr_ok_elim h
    have hpu2 : popUnit t = .ok ([(pystr "unit", u)], t2) := by
      simp only [popUnit, hpop, hq]
    dsimp only at hpu
    rw [hpu2] at hpu
    cases hpu
    have hdims : pystr "unit" ∉ dims := fun hmem =>
      hnot (removeCols_subset vcols (t2.map (fun p => p.1)) dims hrm hmem)
    have hfin : pystr "unit" ∉ finalDims := by
      intro hmem
      have hsub := squeezeDims_subset hsq
      by_cases hde : dims.isEmpty
      · rw [if_pos hde] at hsub
        have := hsub hmem
        simp only [List.mem_singleton] at this
        exact absurd this (by decide)
      · rw [if_neg hde] at hsub
        exact hdims (hsub hmem)
    intro p hp
    subst hres
    obtain ⟨c, _, rfl⟩ := List.mem_map.mp hp
    exact ⟨rfl, hfin, rfl⟩

/-- Claim C8 (witness): a table with units `['kg', 'lb']` fails with the
assertion-error class; with units `['kg', 'kg']` the returned array for
`'value'` carries the `unit = 'kg'` attribute, is not indexed by `unit`, and
is named after the quantity. -/
theorem quantity_as_xr_C8_witness :
    quantity_as_xr (pystr "q") (pystr "par")
      (.inr [(pystr "a", [pystr "x", pystr "y"]),
        (pystr "unit", [pystr "kg", pystr "lb"]),
        (pystr "value", [pystr "1", pystr "2"])]) = .error .assertionError ∧
    ((pystr "value",
        (⟨[pystr "a"], [pystr "1", pystr "2"], [(pystr "unit", pystr "kg")],
          pystr "q"⟩ : DataArray)).2.attrs = [(pystr "unit", pystr "kg")] ∧
      pystr "unit" ∉ (pystr "value",
        (⟨[pystr "a"], [pystr "1", pystr "2"], [(pystr "unit", pystr "kg")],
          pystr "q"⟩ : DataArray)).2.dims ∧
      (pystr "value",
        (⟨[pystr "a"], [pystr "1", pystr "2"], [(pystr "unit", pystr "kg")],
          pystr "q"⟩ : DataArray)).2.name = pystr "q") :=
  ⟨quantity_as_xr_C8.1 (pystr "q") (pystr "par")
      [(pystr "a", [pystr "x", pystr "y"]),
        (pystr "unit", [pystr "kg", pystr "lb"]),
        (pystr "value", [pystr "1", pystr "2"])]
      [pystr "kg", pystr "lb"]
      [(pystr "a", [pystr "x", pystr "y"]), (pystr "value", [pystr "1", pystr "2"])]
      rfl (by decide),
    quantity_as_xr_C8.2 (pystr "q") (pystr "par")
      [(pystr "a", [pystr "x", pystr "y"]),
        (pystr "unit", [pystr "kg", pystr "kg"]),
        (pystr "value", [pystr "1", pystr "2"])]
      [pystr "kg", pystr "kg"]
      [(pystr "a", [pystr "x", pystr "y"]), (pystr "value", [pystr "1", pystr "2"])]
      (pystr "kg")
      [(pystr "value",
        ⟨[pystr "a"], [pystr "1", pystr "2"], [(pystr "unit", pystr "kg")],
          pystr "q"⟩)]
      rfl rfl (by decide) rfl
      (pystr "value",
        ⟨[pystr "a"], [pystr "1", pystr "2"], [(pystr "unit", pystr "kg")],
          pystr "q"⟩)
      (by decide)⟩

/-- Claim C9: a scalar record (a dict whose only columns are the value and,
optionally, the unit — no dimension columns) retrieved for a parameter
quantity is wrapped as a one-row table, and the result is a single
zero-dimensional labeled array: the length-one placeholder `index` dimension
is dropped, the unit (when present) is attached, and the array is named after
the quantity.  Stated for both dict orders and for a unit-less record. -/
theorem quantity_as_xr_C9 (name v u : PyStr) :
    quantity_as_xr name (pystr "par") (.inl [(pystr "value", v), (pystr "unit", u)]) =
      .ok [(pystr "value", ⟨[], [v], [(pystr "unit", u)], name⟩)] ∧
    quantity_as_xr name (pystr "par") (.inl [(pystr "unit", u), (pystr "value", v)]) =
      .ok [(pystr "value", ⟨[], [v], [(pystr "unit", u)], name⟩)] ∧
    quantity_as_xr name (pystr "par") (.inl [(pystr "value", v)]) =
      .ok [(pystr "value", ⟨[], [v], [], name⟩)] :=
  ⟨rfl, rfl, rfl⟩
